import Mathlib

/-!
# butler: the wake-word listener of `main.go`

A shallow embedding of `main.go` (package `main` of andyleap/butler) and the
properties of its session state machine.

* The PocketSphinx decoder is an external library.  Its only state the program
  reads back is the active search (`GetSearch` returns the name last given to
  `SetSearch`); every other answer of the decoder (`IsInSpeech`, `GetHyp`, the
  error results of `StartUtt` and `EndUtt`) and the wall clock are inputs of the
  frame on which they are read.
* Every decoder call and every `log` call is recorded, in program order.
* `time.Time` is an integer number of nanoseconds; the zero `time.Time` is `0`.
* `log.Fatalln` ends the process: the outcome is marked `fatal` and nothing
  after it runs.
-/

namespace Butler

/-! ## Constants -/

/-- The `time.Second` duration, in nanoseconds. -/
def second : Int := 1000000000

/-- The wake phrase given to `ps.SetKeyphrase("keyword", "hey butler")`. -/
def keyphrase : String := "hey butler"

/-- Capacity of `audioChannel`: `make(chan []int16, 50)`. -/
def audioChannelCap : Nat := 50

/-- Two's complement wrap-around of an `int32` result. -/
def wrap32 (x : Int) : Int := (x + 2147483648) % 4294967296 - 2147483648

/-! ## Decoder calls and log lines -/

/-- A call made on the decoder `ps` / `l.dec`. -/
inductive Call where
  | parseJSGF (name : String) (grammar : String)
  | setKeyphrase (name : String) (phrase : String)
  | setSearch (name : String)
  | startUtt
  | endUtt
  | processRaw (samples : List Int) (doSearch : Bool) (fullUtt : Bool)
  | isInSpeech
  | getSearch
  | getHyp
  deriving DecidableEq, Repr

/-- A line written through package `log` by `Process` and `report`. -/
inductive LogLine where
  /-- The call `log.Println("BACKLOG: ", curdepth)`. -/
  | backlog (curdepth : Int)
  /-- The call `log.Println("Listening..")`. -/
  | listening
  /-- The call `log.Printf("%q", l.dec.GetSearch())`. -/
  | search (name : String)
  /-- The call `log.Println(res)` after a keyword hypothesis. -/
  | keyword (res : String)
  /-- The call `log.Println("Timeout..")`. -/
  | timeout
  /-- The call `log.Println("ah, nothing")`. -/
  | nothing
  /-- The call `log.Printf("    > hypothesis: %v", hyp)`. -/
  | hypothesis (hyp : String)
  /-- The call `log.Fatalln("[ERR] Sphinx failed to start utterance")`. -/
  | fatalStartUtt
  deriving DecidableEq, Repr

/-- Message body of a log line.  `quote` is the rendering of the `%q` verb of
package `fmt`; `Println` puts a blank between its operands. -/
def LogLine.text (quote : String → String) : LogLine → String
  | .backlog curdepth => "BACKLOG: " ++ " " ++ toString curdepth
  | .listening => "Listening.."
  | .search name => quote name
  | .keyword res => res
  | .timeout => "Timeout.."
  | .nothing => "ah, nothing"
  | .hypothesis hyp => "    > hypothesis: " ++ hyp
  | .fatalStartUtt => "[ERR] Sphinx failed to start utterance"

/-! ## State -/

/-- The part of the decoder the program reads back: the active search. -/
structure Decoder where
  search : String
  deriving DecidableEq, Repr

/-- The call `SetSearch(name)`. -/
def Decoder.SetSearch (_d : Decoder) (name : String) : Decoder := { search := name }

/-- The call `GetSearch()`. -/
def Decoder.GetSearch (d : Decoder) : String := d.search

/-- The struct `Listener`.  The channel `audioChannel` is a reference to a shared
queue: its content is the stream of frames `Process` ranges over, and the buffer
argument of `paCallback`. -/
structure Listener where
  inSpeech : Bool
  uttStarted : Bool
  dec : Decoder
  inCommand : Bool
  commandTimeout : Int
  chanDepth : Int
  deriving DecidableEq, Repr

/-- What one iteration of the loop of `Process` receives and observes. -/
structure Frame where
  /-- The value `in` received from `audioChannel`. -/
  samples : List Int
  /-- Number of `atomic.AddInt32(&l.chanDepth, 1)` of `paCallback` that took
  effect since the previous iteration read the counter. -/
  pushed : Nat
  /-- Result of `l.dec.IsInSpeech()`. -/
  inSpeech : Bool
  /-- Whether `l.dec.EndUtt()` returns a nil error, if called. -/
  endUttOk : Bool
  /-- Result of `l.dec.GetHyp()`, if called: `none` for a non-nil error. -/
  hyp : Option String
  /-- Whether `l.dec.StartUtt()` returns a nil error, if called. -/
  startUttOk : Bool
  /-- Result of `time.Now()`, if called. -/
  now : Int
  deriving DecidableEq, Repr

/-- State, termination flag and recorded effects of a piece of the program. -/
structure Outcome where
  l : Listener
  fatal : Bool
  calls : List Call
  log : List LogLine
  deriving DecidableEq, Repr

/-! ## The program -/

/-- Send on a buffered Go channel holding `buf`: completes at once when the
buffer has room, and otherwise (`none`) waits for a receive. -/
def chanSend {α : Type} (cap : Nat) (buf : List α) (x : α) : Option (List α) :=
  if buf.length < cap then some (buf ++ [x]) else none

/-- The method `paCallback`: `l.audioChannel <- in`, then
`atomic.AddInt32(&l.chanDepth, 1)`.  `buf` is the content of `audioChannel`;
`none` when the send has to wait for the consumer. -/
def Listener.paCallback (l : Listener) (buf : List (List Int)) (inp : List Int) :
    Option (List (List Int) × Listener) :=
  match chanSend audioChannelCap buf inp with
  | none => none
  | some buf' => some (buf', { l with chanDepth := wrap32 (l.chanDepth + 1) })

/-- The method `report`: the decoder calls and the line it logs, given the result
of `l.dec.GetHyp()`. -/
def Listener.report (_l : Listener) (hyp : Option String) : List Call × List LogLine :=
  match hyp with
  | none => ([Call.getHyp], [LogLine.nothing])
  | some h => ([Call.getHyp], [LogLine.hypothesis h])

/-- The tail `if l.dec.StartUtt() != nil { log.Fatalln(...) }` shared by the two
branches that reopen an utterance. -/
def restartUtt (l : Listener) (f : Frame) (calls : List Call) (log : List LogLine) : Outcome :=
  if f.startUttOk then
    { l := l, fatal := false, calls := calls ++ [Call.startUtt], log := log }
  else
    { l := l, fatal := true, calls := calls ++ [Call.startUtt],
      log := log ++ [LogLine.fatalStartUtt] }

/-- The value `curdepth` returned by `atomic.AddInt32(&l.chanDepth, -1)`, after
the `f.pushed` increments of the producer. -/
def Listener.curdepth (l : Listener) (f : Frame) : Int :=
  wrap32 (wrap32 (l.chanDepth + f.pushed) + (-1))

/-- One iteration of the `for in := range l.audioChannel` loop of `Process`. -/
def Listener.processFrame (l : Listener) (f : Frame) : Outcome :=
  let curdepth := l.curdepth f
  let l := { l with chanDepth := curdepth }
  let log := if curdepth > 10 then [LogLine.backlog curdepth] else []
  let calls := [Call.processRaw f.samples true false, Call.isInSpeech]
  if f.inSpeech then
    let l := { l with inSpeech := true }
    if !l.uttStarted then
      { l := { l with uttStarted := true }, fatal := false, calls := calls,
        log := log ++ [LogLine.listening] }
    else
      { l := l, fatal := false, calls := calls, log := log }
  else if l.uttStarted then
    let calls := calls ++ [Call.endUtt]
    let l := { l with uttStarted := false }
    let calls := calls ++ [Call.getSearch]
    let log := log ++ [LogLine.search l.dec.GetSearch]
    let calls := calls ++ [Call.getSearch]
    if l.dec.GetSearch = "keyword" then
      let calls := calls ++ [Call.getHyp]
      match f.hyp with
      | some res =>
        let log := log ++ [LogLine.keyword res]
        let calls := calls ++ [Call.setSearch "grammar"]
        let l := { l with dec := l.dec.SetSearch "grammar" }
        let l := { l with commandTimeout := f.now + 5 * second }
        let l := { l with inCommand := true }
        restartUtt l f calls log
      | none => restartUtt l f calls log
    else
      let l := { l with inCommand := false }
      let r := l.report f.hyp
      let calls := calls ++ r.1
      let log := log ++ r.2
      let calls := calls ++ [Call.setSearch "keyword"]
      let l := { l with dec := l.dec.SetSearch "keyword" }
      restartUtt l f calls log
  else if l.inCommand && decide (l.commandTimeout < f.now) then
    let calls := calls ++ [Call.endUtt]
    let log := log ++ [LogLine.timeout]
    let l := { l with inCommand := false }
    let calls := calls ++ [Call.setSearch "keyword"]
    let l := { l with dec := l.dec.SetSearch "keyword" }
    restartUtt l f calls log
  else
    { l := l, fatal := false, calls := calls, log := log }

/-- The method `Process`, over the frames the channel delivers, in order. -/
def Listener.Process : Listener → List Frame → Outcome
  | l, [] => { l := l, fatal := false, calls := [], log := [] }
  | l, f :: fs =>
    let s := l.processFrame f
    if s.fatal then s
    else
      let r := Listener.Process s.l fs
      { l := r.l, fatal := r.fatal, calls := s.calls ++ r.calls, log := s.log ++ r.log }

/-- The decoder set-up and first `StartUtt` of `main`: `grammar` is the content
read from `grammar.jsgf`, `startUttOk` whether `ps.StartUtt()` returns nil. -/
def startup (grammar : String) (startUttOk : Bool) : Outcome :=
  let calls := [Call.parseJSGF "grammar" grammar, Call.setKeyphrase "keyword" keyphrase,
    Call.setSearch "keyword"]
  let ps : Decoder := { search := "keyword" }
  let l : Listener :=
    { inSpeech := false, uttStarted := false, dec := ps, inCommand := false,
      commandTimeout := 0, chanDepth := 0 }
  if startUttOk then
    { l := l, fatal := false, calls := calls ++ [Call.startUtt], log := [] }
  else
    { l := l, fatal := true, calls := calls ++ [Call.startUtt],
      log := [LogLine.fatalStartUtt] }

/-- The function `main` from the decoder set-up on: `startup`, then
`go l.Process()`. -/
def main (grammar : String) (startUttOk : Bool) (frames : List Frame) : Outcome :=
  let s := startup grammar startUttOk
  if s.fatal then s
  else
    let r := s.l.Process frames
    { l := r.l, fatal := r.fatal, calls := s.calls ++ r.calls, log := s.log ++ r.log }

/-! ## Vocabulary of the properties -/

/-- Whether a log line is the backlog warning. -/
def LogLine.isBacklog : LogLine → Bool
  | .backlog _ => true
  | _ => false

/-- A frame on which the decoder reports speech. -/
def speechFrame (now : Int) : Frame :=
  { samples := [], pushed := 1, inSpeech := true, endUttOk := true, hyp := none,
    startUttOk := true, now := now }

/-- A frame on which the decoder reports silence, with the given hypothesis. -/
def silenceFrame (hyp : Option String) (now : Int) : Frame :=
  { samples := [], pushed := 1, inSpeech := false, endUttOk := true, hyp := hyp,
    startUttOk := true, now := now }

/-- The five speech frames of the wake phrase scenario, at clock times 1 to 5. -/
def wakeSpeech : List Frame :=
  [1, 2, 3, 4, 5].map speechFrame

/-- The first silent frame of the wake phrase scenario, at clock time 6, on which
the decoder returns the hypothesis "hey butler". -/
def wakeSilence : Frame := silenceFrame (some "hey butler") 6

/-- The state in which a command is being spoken: the wake phrase scenario, then a
speech frame at clock time 7. -/
def commandSpeechState : Listener :=
  (main "" true (wakeSpeech ++ [wakeSilence, speechFrame 7])).l

/-- The state right after the keyword match of the wake phrase scenario. -/
def afterKeywordState : Listener := (main "" true (wakeSpeech ++ [wakeSilence])).l

/-- The state while the wake phrase is being spoken: startup, then the five speech
frames. -/
def wakeSpeechState : Listener := (main "" true wakeSpeech).l

/-- A silent frame at clock time 6 on which `EndUtt` returns an error and
`StartUtt` succeeds. -/
def endUttErrFrame : Frame :=
  { samples := [], pushed := 1, inSpeech := false, endUttOk := false, hyp := none,
    startUttOk := true, now := 6 }

/-- A silent frame at clock time 6 on which `StartUtt` returns an error. -/
def startUttErrFrame : Frame :=
  { samples := [], pushed := 1, inSpeech := false, endUttOk := true, hyp := none,
    startUttOk := false, now := 6 }

/-- A full `audioChannel`: fifty unconsumed frames. -/
def fullChannel : List (List Int) := List.replicate 50 []

/-- A silent frame at clock time 1 before which the callback has incremented the
depth counter `n` times. -/
def queuedFrame (n : Nat) : Frame :=
  { samples := [], pushed := n, inSpeech := false, endUttOk := true, hyp := none,
    startUttOk := true, now := 1 }

/-- The iteration with the depth counter out of the way: the outcome at depth
counter `1` and no push, where the value read is `0`. -/
def Listener.processCore (l : Listener) (f : Frame) : Outcome :=
  ({ l with chanDepth := 1 }).processFrame { f with pushed := 0 }

/-- The utterance lifecycle calls of a trace, in order. -/
def lifecycle (cs : List Call) : List Call :=
  cs.filter (fun c => decide (c = Call.startUtt) || decide (c = Call.endUtt))

/-- Strict alternation of a lifecycle trace; `expectStart` tells which call has
to come first. -/
def alternates : Bool → List Call → Bool
  | _, [] => true
  | true, Call.startUtt :: cs => alternates false cs
  | false, Call.endUtt :: cs => alternates true cs
  | _, _ :: _ => false

/-- Number of `StartUtt` calls in a trace. -/
def startCount (cs : List Call) : Nat := cs.count Call.startUtt

/-- Number of `EndUtt` calls in a trace. -/
def endCount (cs : List Call) : Nat := cs.count Call.endUtt

/-- Whether a decoder utterance is open after a trace, every call of which
succeeded: `StartUtt` has been called more recently than `EndUtt`. -/
def uttOpen (cs : List Call) : Bool :=
  decide ((lifecycle cs).getLast? = some Call.startUtt)


/-! ## Shape of one iteration -/

theorem restartUtt_l (l : Listener) (f : Frame) (calls : List Call) (log : List LogLine) :
    (restartUtt l f calls log).l = l := by
  unfold restartUtt
  split <;> rfl

theorem restartUtt_calls (l : Listener) (f : Frame) (calls : List Call) (log : List LogLine) :
    (restartUtt l f calls log).calls = calls ++ [Call.startUtt] := by
  unfold restartUtt
  split <;> rfl

theorem restartUtt_fatal (l : Listener) (f : Frame) (calls : List Call) (log : List LogLine) :
    (restartUtt l f calls log).fatal = !f.startUttOk := by
  unfold restartUtt
  split <;> simp_all

/-- The lifecycle calls of one iteration: none, or one `EndUtt` then one
`StartUtt`. -/
theorem processFrame_lifecycle (l : Listener) (f : Frame) :
    lifecycle (l.processFrame f).calls = [] ∨
      lifecycle (l.processFrame f).calls = [Call.endUtt, Call.startUtt] := by
  unfold Listener.processFrame
  simp only []
  split_ifs
  all_goals first
    | (left; rfl)
    | (right; simp [restartUtt_calls, lifecycle, Listener.report]; done)
    | (right; cases f.hyp <;> simp [restartUtt_calls, lifecycle, Listener.report])

theorem lifecycle_append (a b : List Call) : lifecycle (a ++ b) = lifecycle a ++ lifecycle b := by
  simp [lifecycle]

/-- An iteration is fatal only when its `StartUtt` fails. -/
theorem processFrame_fatal_startUtt (l : Listener) (f : Frame)
    (h : (l.processFrame f).fatal = true) : f.startUttOk = false := by
  unfold Listener.processFrame at h
  simp only [] at h
  split_ifs at h
  all_goals first
    | (simp at h; done)
    | (cases hh : f.hyp <;> simp [hh, restartUtt_fatal] at h <;> exact h)

/-- The lifecycle trace of `Process` is a sequence of `EndUtt`, `StartUtt` pairs. -/
theorem Process_alternates (fs : List Frame) : ∀ l : Listener,
    alternates false (lifecycle (l.Process fs).calls) = true ∧
      startCount (l.Process fs).calls = endCount (l.Process fs).calls := by
  induction fs with
  | nil => intro l; simp [Listener.Process, lifecycle, alternates, startCount, endCount]
  | cons f fs ih =>
    intro l
    have hstep := processFrame_lifecycle l f
    have hcount : startCount (l.processFrame f).calls = endCount (l.processFrame f).calls := by
      have h1 : startCount (l.processFrame f).calls
          = (lifecycle (l.processFrame f).calls).count Call.startUtt := by
        simp [startCount, lifecycle, List.count_filter]
      have h2 : endCount (l.processFrame f).calls
          = (lifecycle (l.processFrame f).calls).count Call.endUtt := by
        simp [endCount, lifecycle, List.count_filter]
      rw [h1, h2]
      rcases hstep with h | h <;> rw [h] <;> decide
    unfold Listener.Process
    simp only []
    split_ifs with hf
    · refine ⟨?_, hcount⟩
      rcases hstep with h | h <;> rw [h] <;> rfl
    · obtain ⟨ih1, ih2⟩ := ih (l.processFrame f).l
      refine ⟨?_, ?_⟩
      · simp only [lifecycle_append]
        rcases hstep with h | h <;> rw [h] <;> simpa [alternates] using ih1
      · simp only [startCount, endCount, List.count_append] at *
        omega

/-- When every `StartUtt` succeeds, `Process` never ends the process. -/
theorem Process_not_fatal (fs : List Frame) : ∀ l : Listener,
    (∀ f ∈ fs, f.startUttOk = true) → (l.Process fs).fatal = false := by
  induction fs with
  | nil => intro l _; rfl
  | cons f fs ih =>
    intro l h
    unfold Listener.Process
    simp only []
    split_ifs with hf
    · have := processFrame_fatal_startUtt l f hf
      have := h f (List.mem_cons_self _ _)
      simp_all
    · exact ih _ (fun g hg => h g (List.mem_cons_of_mem _ hg))

/-- The depth counter only decides the stored depth and the backlog line. -/
theorem processFrame_eq_core (l : Listener) (f : Frame) :
    l.processFrame f =
      { l := { (l.processCore f).l with chanDepth := l.curdepth f },
        fatal := (l.processCore f).fatal,
        calls := (l.processCore f).calls,
        log := (if l.curdepth f > 10 then [LogLine.backlog (l.curdepth f)] else [])
          ++ (l.processCore f).log } := by
  have h0 : Listener.curdepth { l with chanDepth := 1 } { f with pushed := 0 } = 0 := by
    simp [Listener.curdepth, wrap32]
  have h1 : ¬ ((0 : Int) > 10) := by decide
  unfold Listener.processCore Listener.processFrame
  simp only [h0, h1, if_false]
  split_ifs <;> first
    | rfl
    | (simp [restartUtt]; done)
    | (cases f.hyp <;> simp [restartUtt, Listener.report] <;> split <;> simp)

/-- No line of the core outcome is a backlog warning. -/
theorem processCore_log_filter (l : Listener) (f : Frame) :
    (l.processCore f).log.filter (fun x => !x.isBacklog) = (l.processCore f).log := by
  have h0 : Listener.curdepth { l with chanDepth := 1 } { f with pushed := 0 } = 0 := by
    simp [Listener.curdepth, wrap32]
  have h1 : ¬ ((0 : Int) > 10) := by decide
  unfold Listener.processCore Listener.processFrame
  simp only [h0, h1, if_false]
  split_ifs <;> first
    | rfl
    | (simp [restartUtt, LogLine.isBacklog]; done)
    | (cases f.hyp <;> simp [restartUtt, Listener.report, LogLine.isBacklog] <;> split <;>
        simp [LogLine.isBacklog])

theorem processCore_setDepth (l : Listener) (f : Frame) (c : Int) (p : Nat) :
    Listener.processCore { l with chanDepth := c } { f with pushed := p } = l.processCore f := rfl

/-- The first two decoder calls of an iteration: feed the frame, read the flag. -/
theorem processCore_calls_take (l : Listener) (f : Frame) :
    (l.processCore f).calls.take 2 = [Call.processRaw f.samples true false, Call.isInSpeech] := by
  unfold Listener.processCore Listener.processFrame
  simp only []
  split_ifs <;> first
    | rfl
    | (simp [restartUtt_calls]; done)
    | (cases f.hyp <;> simp [restartUtt_calls, Listener.report])

/-- An iteration that ends the process leaves `uttStarted` false, and its last
decoder call is the failed `StartUtt`. -/
theorem processFrame_fatal_uttStarted (l : Listener) (f : Frame)
    (h : (l.processFrame f).fatal = true) :
    (l.processFrame f).l.uttStarted = false ∧
      (l.processFrame f).calls.getLast? = some Call.startUtt := by
  unfold Listener.processFrame at h ⊢
  simp only [] at h ⊢
  split_ifs at h ⊢ <;> first
    | (simp at h; done)
    | (simp_all [restartUtt_l, restartUtt_calls]; done)
    | (cases hh : f.hyp <;> simp_all [restartUtt_l, restartUtt_calls, Listener.report])

/-- A run of `Process` that ends the process leaves `uttStarted` false. -/
theorem Process_fatal_uttStarted (fs : List Frame) : ∀ l : Listener,
    (l.Process fs).fatal = true →
      (l.Process fs).l.uttStarted = false ∧
      (l.Process fs).calls.getLast? = some Call.startUtt := by
  induction fs with
  | nil => intro l h; simp [Listener.Process] at h
  | cons f fs ih =>
    intro l h
    unfold Listener.Process at h ⊢
    simp only [] at h ⊢
    split_ifs at h ⊢ with hf
    · exact processFrame_fatal_uttStarted l f hf
    · obtain ⟨h1, h2⟩ := ih _ h
      refine ⟨h1, ?_⟩
      simp only []
      rw [List.getLast?_append, h2]
      rfl

/-- The lifecycle trace of `Process` is empty or ends with `StartUtt`. -/
theorem Process_lifecycle_last (fs : List Frame) : ∀ l : Listener,
    lifecycle (l.Process fs).calls = [] ∨
      (lifecycle (l.Process fs).calls).getLast? = some Call.startUtt := by
  induction fs with
  | nil => intro l; left; rfl
  | cons f fs ih =>
    intro l
    have hstep := processFrame_lifecycle l f
    unfold Listener.Process
    simp only []
    split_ifs with hf
    · rcases hstep with h | h
      · left; exact h
      · right; rw [h]; rfl
    · simp only [lifecycle_append]
      rcases ih (l.processFrame f).l with h2 | h2
      · rw [h2, List.append_nil]
        rcases hstep with h | h
        · left; exact h
        · right; rw [h]; rfl
      · right
        rw [List.getLast?_append, h2]
        rfl

/-- After an iteration `uttStarted` is the voice-activity flag of its frame. -/
theorem processFrame_uttStarted (l : Listener) (f : Frame) :
    (l.processFrame f).l.uttStarted = f.inSpeech := by
  unfold Listener.processFrame
  simp only []
  split_ifs <;> first
    | (simp_all; done)
    | (simp_all [restartUtt_l]; done)
    | (cases hh : f.hyp <;> simp_all [restartUtt_l])

/-- After a run that goes through, `uttStarted` is the voice-activity flag of the
last frame. -/
theorem Process_uttStarted (fs : List Frame) : ∀ l : Listener,
    (l.Process fs).fatal = false → ∀ f, fs.getLast? = some f →
      (l.Process fs).l.uttStarted = f.inSpeech := by
  induction fs with
  | nil => intro l _ f hf; simp at hf
  | cons g fs ih =>
    intro l hnf f hf
    unfold Listener.Process at hnf ⊢
    simp only [] at hnf ⊢
    split_ifs at hnf ⊢ with hg
    · simp [hg] at hnf
    · cases fs with
      | nil =>
        simp at hf
        subst hf
        simpa [Listener.Process] using processFrame_uttStarted l g
      | cons g2 fs2 =>
        have hf2 : (g2 :: fs2).getLast? = some f := by
          simpa [List.getLast?_cons_cons] using hf
        exact ih _ hnf f hf2

/-- The mode and the command flag after one iteration from a coupled state. -/
theorem processFrame_coupled (l : Listener) (f : Frame)
    (h : (l.inCommand = true ∧ l.dec.search = "grammar") ∨
      (l.inCommand = false ∧ l.dec.search = "keyword")) :
    ((l.processFrame f).l.inCommand = true ∧ (l.processFrame f).l.dec.search = "grammar") ∨
      ((l.processFrame f).l.inCommand = false ∧ (l.processFrame f).l.dec.search = "keyword") := by
  have hk : ¬ ("grammar" = "keyword") := by decide
  unfold Listener.processFrame
  simp only []
  rcases h with ⟨h1, h2⟩ | ⟨h1, h2⟩ <;>
    split_ifs <;> first
      | (simp_all [restartUtt_l, Decoder.GetSearch, Decoder.SetSearch]; done)
      | (cases hh : f.hyp <;> simp_all [restartUtt_l, Decoder.GetSearch, Decoder.SetSearch])

/-- The coupling of mode and command flag is kept by every run of `Process`. -/
theorem Process_coupled (fs : List Frame) : ∀ l : Listener,
    ((l.inCommand = true ∧ l.dec.search = "grammar") ∨
      (l.inCommand = false ∧ l.dec.search = "keyword")) →
    (((l.Process fs).l.inCommand = true ∧ (l.Process fs).l.dec.search = "grammar") ∨
      ((l.Process fs).l.inCommand = false ∧ (l.Process fs).l.dec.search = "keyword")) := by
  induction fs with
  | nil => intro l h; simpa [Listener.Process] using h
  | cons f fs ih =>
    intro l h
    have hstep := processFrame_coupled l f h
    unfold Listener.Process
    simp only []
    split_ifs with hf
    · exact hstep
    · exact ih _ hstep

/-- An `int32` value is its own wrap-around. -/
theorem wrap32_of_range (x : Int) (h1 : -2147483648 ≤ x) (h2 : x ≤ 2147483647) :
    wrap32 x = x := by
  unfold wrap32
  omega

/-- The value read by the pop when no overflow occurs: the counter, plus the
pushes, minus one. -/
theorem curdepth_of_range (l : Listener) (f : Frame)
    (h1 : -2147483648 < l.chanDepth + f.pushed) (h2 : l.chanDepth + f.pushed ≤ 2147483647) :
    l.curdepth f = l.chanDepth + f.pushed - 1 := by
  unfold Listener.curdepth
  rw [wrap32_of_range _ (by omega) h2, wrap32_of_range _ (by omega) (by omega)]
  omega

/-- After an iteration `inSpeech` is its old value or the flag of the frame. -/
theorem processFrame_inSpeech (l : Listener) (f : Frame) :
    (l.processFrame f).l.inSpeech = (l.inSpeech || f.inSpeech) := by
  unfold Listener.processFrame
  simp only []
  split_ifs <;> first
    | (simp_all; done)
    | (simp_all [restartUtt_l]; done)
    | (cases hh : f.hyp <;> simp_all [restartUtt_l])

/-- After a run that goes through, `inSpeech` is its old value or the flag of one
of the frames. -/
theorem Process_inSpeech (fs : List Frame) : ∀ l : Listener,
    (∀ f ∈ fs, f.startUttOk = true) →
      (l.Process fs).l.inSpeech = (l.inSpeech || fs.any (fun f => f.inSpeech)) := by
  induction fs with
  | nil => intro l _; simp [Listener.Process]
  | cons g fs ih =>
    intro l h
    have hg : (l.processFrame g).fatal = false := by
      cases hfat : (l.processFrame g).fatal
      · rfl
      · have h1 := processFrame_fatal_startUtt l g hfat
        have h2 := h g (List.mem_cons_self _ _)
        simp [h1] at h2
    unfold Listener.Process
    simp only [hg, Bool.false_eq_true, if_false]
    rw [ih _ (fun f hf => h f (List.mem_cons_of_mem _ hf)), processFrame_inSpeech]
    simp [Bool.or_assoc]

/-! ## Settled properties -/

/-- C1: when the initial `StartUtt` of `main` and every lifecycle call of `Process`
succeed, then after startup and after every processed frame (every prefix of the
frame sequence) the process is still running, the lifecycle calls issued so far
alternate strictly between `StartUtt` and `EndUtt` beginning with `StartUtt`, and
the number of `StartUtt` calls exceeds the number of `EndUtt` calls by exactly one. -/
theorem C1_lifecycle_alternates (grammar : String) (startUttOk : Bool) (frames : List Frame)
    (h0 : startUttOk = true)
    (hok : ∀ f ∈ frames, f.startUttOk = true ∧ f.endUttOk = true) (k : Nat) :
    (main grammar startUttOk (frames.take k)).fatal = false ∧
    alternates true (lifecycle (main grammar startUttOk (frames.take k)).calls) = true ∧
    startCount (main grammar startUttOk (frames.take k)).calls =
      endCount (main grammar startUttOk (frames.take k)).calls + 1 := by
  subst h0
  have hok' : ∀ f ∈ frames.take k, f.startUttOk = true :=
    fun f hf => (hok f (List.mem_of_mem_take hf)).1
  obtain ⟨h1, h2⟩ := Process_alternates (frames.take k) (startup grammar true).l
  have h3 := Process_not_fatal (frames.take k) (startup grammar true).l hok'
  refine ⟨?_, ?_, ?_⟩
  · simpa [main, startup] using h3
  · simpa [main, startup, lifecycle_append, lifecycle, alternates] using h1
  · simp only [main, startup, startCount, endCount, List.count_append] at *
    simp
    simpa [startCount, endCount] using h2

/-- C1 at a run of the wake phrase: two speech frames and the closing silence. -/
theorem C1_lifecycle_alternates_witness :
    (∀ f ∈ [speechFrame 1, speechFrame 2, silenceFrame (some "hey butler") 3],
      f.startUttOk = true ∧ f.endUttOk = true) ∧
    (main "" true ([speechFrame 1, speechFrame 2, silenceFrame (some "hey butler") 3].take 3)).fatal
      = false ∧
    alternates true (lifecycle (main "" true
      ([speechFrame 1, speechFrame 2, silenceFrame (some "hey butler") 3].take 3)).calls) = true ∧
    startCount (main "" true
      ([speechFrame 1, speechFrame 2, silenceFrame (some "hey butler") 3].take 3)).calls =
      endCount (main "" true
        ([speechFrame 1, speechFrame 2, silenceFrame (some "hey butler") 3].take 3)).calls + 1 :=
  ⟨by decide, C1_lifecycle_alternates "" true _ rfl (by decide) 3⟩

/-- C2: from a state with `uttStarted` true and active search "keyword", a silent
frame at clock time `f.now` on which `GetHyp` succeeds with a non-empty hypothesis
leaves the active search "grammar", `inCommand` true and `commandTimeout` equal to
`f.now` plus five seconds. -/
theorem C2_keyword_match (l : Listener) (f : Frame) (h : String)
    (hu : l.uttStarted = true) (hs : l.dec.GetSearch = "keyword")
    (hsil : f.inSpeech = false) (hh : f.hyp = some h) (_hne : h ≠ "") :
    (l.processFrame f).l.dec.GetSearch = "grammar" ∧
    (l.processFrame f).l.inCommand = true ∧
    (l.processFrame f).l.commandTimeout = f.now + 5 * second := by
  simp only [Decoder.GetSearch] at hs
  simp [Listener.processFrame, hu, hs, hsil, hh, restartUtt_l, Decoder.GetSearch,
    Decoder.SetSearch]

/-- C2 in the scripted scenario: after startup and speech on frames 1 to 5, frame 6
is silent with hypothesis "hey butler"; the state after frame 6 is in "grammar"
mode, in command, with the deadline five seconds after the clock of frame 6. -/
theorem C2_keyword_match_witness :
    (main "" true wakeSpeech).l.uttStarted = true ∧
    (main "" true wakeSpeech).l.dec.GetSearch = "keyword" ∧
    (main "" true (wakeSpeech ++ [wakeSilence])).l
      = ((main "" true wakeSpeech).l.processFrame wakeSilence).l ∧
    (((main "" true wakeSpeech).l.processFrame wakeSilence).l.dec.GetSearch = "grammar" ∧
     ((main "" true wakeSpeech).l.processFrame wakeSilence).l.inCommand = true ∧
     ((main "" true wakeSpeech).l.processFrame wakeSilence).l.commandTimeout
       = wakeSilence.now + 5 * second) :=
  ⟨by decide, by decide, by decide,
    C2_keyword_match (main "" true wakeSpeech).l wakeSilence "hey butler"
      (by decide) (by decide) (by decide) (by decide) (by decide)⟩

/-- C3: from a state with `uttStarted` true and active search "grammar", a silent
frame logs the report line carrying the hypothesis text when `GetHyp` succeeds and
the "ah, nothing" line when it fails; either way the utterance is ended, the
active search becomes "keyword", `inCommand` becomes false, and `StartUtt` is
called last (the process goes on exactly when it succeeds). -/
theorem C3_command_end (l : Listener) (f : Frame)
    (hu : l.uttStarted = true) (hs : l.dec.GetSearch = "grammar")
    (hsil : f.inSpeech = false) :
    (∀ h, f.hyp = some h →
      LogLine.hypothesis h ∈ (l.processFrame f).log ∧
      ∀ quote, ∃ pre post, (LogLine.hypothesis h).text quote = pre ++ h ++ post) ∧
    (f.hyp = none → LogLine.nothing ∈ (l.processFrame f).log ∧
      ∀ quote, LogLine.nothing.text quote = "ah, nothing") ∧
    (l.processFrame f).l.dec.GetSearch = "keyword" ∧
    (l.processFrame f).l.inCommand = false ∧
    (l.processFrame f).l.uttStarted = false ∧
    (l.processFrame f).calls =
      [Call.processRaw f.samples true false, Call.isInSpeech, Call.endUtt, Call.getSearch,
        Call.getSearch, Call.getHyp, Call.setSearch "keyword", Call.startUtt] ∧
    (l.processFrame f).fatal = !f.startUttOk := by
  simp only [Decoder.GetSearch] at hs
  have hk : ¬ ("grammar" = "keyword") := by decide
  refine ⟨?_, ?_, ?_, ?_, ?_, ?_, ?_⟩
  · intro h hh
    refine ⟨?_, fun _ => ⟨"    > hypothesis: ", "", by simp [LogLine.text]⟩⟩
    simp [Listener.processFrame, hu, hs, hsil, hh, hk, Decoder.GetSearch, Listener.report,
      restartUtt]
    split <;> simp
  · intro hh
    refine ⟨?_, fun _ => rfl⟩
    simp [Listener.processFrame, hu, hs, hsil, hh, hk, Decoder.GetSearch, Listener.report,
      restartUtt]
    split <;> simp
  · simp [Listener.processFrame, hu, hs, hsil, hk, Decoder.GetSearch, restartUtt_l,
      Decoder.SetSearch]
  · simp [Listener.processFrame, hu, hs, hsil, hk, Decoder.GetSearch, restartUtt_l]
  · simp [Listener.processFrame, hu, hs, hsil, hk, Decoder.GetSearch, restartUtt_l]
  · cases hh : f.hyp <;>
      simp [Listener.processFrame, hu, hs, hsil, hk, hh, Decoder.GetSearch, restartUtt_calls,
        Listener.report]
  · simp [Listener.processFrame, hu, hs, hsil, hk, Decoder.GetSearch, restartUtt_fatal]

/-- C3 at the command "turn on lights" spoken after the wake phrase: the report line
carries that text and the mode is back to "keyword". -/
theorem C3_command_end_witness :
    commandSpeechState.uttStarted = true ∧ commandSpeechState.dec.GetSearch = "grammar" ∧
    LogLine.hypothesis "turn on lights" ∈
      (commandSpeechState.processFrame (silenceFrame (some "turn on lights") 8)).log ∧
    (commandSpeechState.processFrame (silenceFrame (some "turn on lights") 8)).l.dec.GetSearch
      = "keyword" ∧
    (commandSpeechState.processFrame (silenceFrame (some "turn on lights") 8)).l.inCommand
      = false :=
  have h := C3_command_end commandSpeechState (silenceFrame (some "turn on lights") 8)
    (by decide) (by decide) (by decide)
  ⟨by decide, by decide, (h.1 "turn on lights" rfl).1, h.2.2.1, h.2.2.2.1⟩

/-- C4: in the state right after a keyword match (`inCommand` true, `uttStarted`
false, active search "grammar", `commandTimeout = d`), a silent frame at clock time
`f.now` takes the timeout branch (logs "Timeout..") exactly when `d < f.now`.  When
it does, `EndUtt` is called, the active search becomes "keyword", `inCommand`
becomes false and `StartUtt` is called; when `f.now ≤ d` nothing but the depth
counter changes and no lifecycle call is made. -/
theorem C4_timeout_iff (l : Listener) (f : Frame) (d : Int)
    (hc : l.inCommand = true) (hu : l.uttStarted = false) (_hs : l.dec.GetSearch = "grammar")
    (hd : l.commandTimeout = d) (hsil : f.inSpeech = false) :
    (LogLine.timeout ∈ (l.processFrame f).log ↔ d < f.now) ∧
    (d < f.now →
      (l.processFrame f).calls =
        [Call.processRaw f.samples true false, Call.isInSpeech, Call.endUtt,
          Call.setSearch "keyword", Call.startUtt] ∧
      (l.processFrame f).l.dec.GetSearch = "keyword" ∧
      (l.processFrame f).l.inCommand = false ∧
      (l.processFrame f).fatal = !f.startUttOk) ∧
    (f.now ≤ d →
      (l.processFrame f).l = { l with chanDepth := l.curdepth f } ∧
      (l.processFrame f).calls = [Call.processRaw f.samples true false, Call.isInSpeech] ∧
      (l.processFrame f).fatal = false) := by
  subst hd
  refine ⟨?_, ?_, ?_⟩
  · by_cases hlt : l.commandTimeout < f.now
    · simp only [hlt, iff_true]
      simp [Listener.processFrame, hc, hu, hsil, hlt, restartUtt]
      split <;> simp
    · simp only [hlt, iff_false]
      simp [Listener.processFrame, hc, hu, hsil, hlt]
  · intro hlt
    simp [Listener.processFrame, hc, hu, hsil, hlt, restartUtt_calls, restartUtt_l,
      restartUtt_fatal, Decoder.GetSearch, Decoder.SetSearch]
  · intro hle
    have hlt : ¬ l.commandTimeout < f.now := not_lt.mpr hle
    simp [Listener.processFrame, hc, hu, hsil, hlt]

/-- C4 right after the keyword match of the wake phrase scenario (deadline
5000000006): a silent frame at clock time 5000000007 takes the timeout branch. -/
theorem C4_timeout_iff_witness :
    afterKeywordState.inCommand = true ∧ afterKeywordState.uttStarted = false ∧
    afterKeywordState.dec.GetSearch = "grammar" ∧
    afterKeywordState.commandTimeout = 5000000006 ∧
    LogLine.timeout ∈ (afterKeywordState.processFrame (silenceFrame none 5000000007)).log ∧
    (afterKeywordState.processFrame (silenceFrame none 5000000007)).l.dec.GetSearch = "keyword" ∧
    (afterKeywordState.processFrame (silenceFrame none 5000000007)).l.inCommand = false ∧
    (afterKeywordState.processFrame (silenceFrame none 5000000006)).l
      = { afterKeywordState with
          chanDepth := afterKeywordState.curdepth (silenceFrame none 5000000006) } :=
  have h := C4_timeout_iff afterKeywordState (silenceFrame none 5000000007) 5000000006
    (by decide) (by decide) (by decide) (by decide) (by decide)
  have h2 := C4_timeout_iff afterKeywordState (silenceFrame none 5000000006) 5000000006
    (by decide) (by decide) (by decide) (by decide) (by decide)
  ⟨by decide, by decide, by decide, by decide, h.1.mpr (by decide), (h.2.1 (by decide)).2.1,
    (h.2.1 (by decide)).2.2.1, (h2.2.2 (by decide)).1⟩

/-- C5: the depth `d` of an iteration is the counter `l.chanDepth`, after the
`f.pushed` increments of the callback, decremented by one for this pop (as an
`int32`; `l.chanDepth + f.pushed - 1` when nothing overflows).  It is the value the
counter holds afterwards, and the backlog warning is logged on the iteration, with
that value, exactly when `d > 10`; no other backlog line is logged.  The frame is
always fed to the decoder first, and changing the depth counter or the number of
pushes changes nothing in the outcome but the stored depth and the backlog line. -/
theorem C5_backlog_iff (l : Listener) (f : Frame) :
    l.curdepth f = wrap32 (wrap32 (l.chanDepth + f.pushed) + (-1)) ∧
    (-2147483648 < l.chanDepth + f.pushed → l.chanDepth + f.pushed ≤ 2147483647 →
      (l.processFrame f).l.chanDepth = l.chanDepth + f.pushed - 1 ∧
      (LogLine.backlog (l.chanDepth + f.pushed - 1) ∈ (l.processFrame f).log ↔
        l.chanDepth + f.pushed - 1 > 10) ∧
      ((l.processFrame f).log.filter (fun x => x.isBacklog) =
        if l.chanDepth + f.pushed - 1 > 10
        then [LogLine.backlog (l.chanDepth + f.pushed - 1)] else [])) ∧
    (l.processFrame f).l.chanDepth = wrap32 (wrap32 (l.chanDepth + f.pushed) + (-1)) ∧
    (LogLine.backlog (wrap32 (wrap32 (l.chanDepth + f.pushed) + (-1))) ∈ (l.processFrame f).log
      ↔ wrap32 (wrap32 (l.chanDepth + f.pushed) + (-1)) > 10) ∧
    (∀ d, LogLine.backlog d ∈ (l.processFrame f).log →
      d = wrap32 (wrap32 (l.chanDepth + f.pushed) + (-1)) ∧ d > 10) ∧
    (l.processFrame f).calls.take 2 = [Call.processRaw f.samples true false, Call.isInSpeech] ∧
    (∀ (c : Int) (p : Nat),
      (({ l with chanDepth := c }).processFrame { f with pushed := p }).calls
        = (l.processFrame f).calls ∧
      (({ l with chanDepth := c }).processFrame { f with pushed := p }).fatal
        = (l.processFrame f).fatal ∧
      { (({ l with chanDepth := c }).processFrame { f with pushed := p }).l with
          chanDepth := (l.processFrame f).l.chanDepth } = (l.processFrame f).l ∧
      (({ l with chanDepth := c }).processFrame { f with pushed := p }).log.filter
          (fun x => !x.isBacklog)
        = (l.processFrame f).log.filter (fun x => !x.isBacklog)) := by
  have hmem : ∀ d, LogLine.backlog d ∉ (l.processCore f).log := by
    intro d hd
    rw [← processCore_log_filter] at hd
    simpa [LogLine.isBacklog] using (List.mem_filter.mp hd).2
  have hfilter : ∀ (l : Listener) (f : Frame),
      (l.processFrame f).log.filter (fun x => !x.isBacklog) = (l.processCore f).log := by
    intro l f
    rw [processFrame_eq_core]
    simp only [List.filter_append, processCore_log_filter]
    split_ifs <;> simp [LogLine.isBacklog]
  have hdef : l.curdepth f = wrap32 (wrap32 (l.chanDepth + f.pushed) + (-1)) := rfl
  have hdepth : (l.processFrame f).l.chanDepth = l.curdepth f := by
    rw [processFrame_eq_core]
  have hiff : LogLine.backlog (l.curdepth f) ∈ (l.processFrame f).log ↔ l.curdepth f > 10 := by
    rw [processFrame_eq_core]
    by_cases h : l.curdepth f > 10 <;> simp [h, hmem]
  have honly : (l.processFrame f).log.filter (fun x => x.isBacklog) =
      if l.curdepth f > 10 then [LogLine.backlog (l.curdepth f)] else [] := by
    have hnone : (l.processCore f).log.filter (fun x => x.isBacklog) = [] := by
      rw [List.filter_eq_nil_iff]
      intro x hx
      have hx2 : x ∈ (l.processCore f).log.filter (fun x => !x.isBacklog) := by
        rw [processCore_log_filter]; exact hx
      simpa using (List.mem_filter.mp hx2).2
    rw [processFrame_eq_core]
    simp only [List.filter_append, hnone, List.append_nil]
    split_ifs <;> simp [LogLine.isBacklog]
  refine ⟨hdef, ?_, ?_, ?_, ?_, ?_, ?_⟩
  · intro h1 h2
    have hr := curdepth_of_range l f h1 h2
    rw [← hr]
    exact ⟨hdepth, hiff, honly⟩
  · rw [← hdef]; exact hdepth
  · rw [← hdef]; exact hiff
  · intro d hd
    rw [← hdef]
    rw [processFrame_eq_core] at hd
    by_cases h : l.curdepth f > 10
    · simp [h, hmem] at hd
      exact ⟨hd, hd ▸ h⟩
    · simp [h, hmem] at hd
  · rw [processFrame_eq_core]
    exact processCore_calls_take l f
  · intro c p
    refine ⟨?_, ?_, ?_, ?_⟩
    · rw [processFrame_eq_core, processFrame_eq_core l f, processCore_setDepth]
    · rw [processFrame_eq_core, processFrame_eq_core l f, processCore_setDepth]
    · rw [processFrame_eq_core, processFrame_eq_core l f, processCore_setDepth]
    · rw [hfilter, hfilter, processCore_setDepth]

/-- C5 at the first pop after startup: with twelve frames pushed the depth after the
pop is 11 and the warning is logged with it; with eleven pushed the depth is 10 and
nothing is logged. -/
theorem C5_backlog_iff_witness :
    (startup "" true).l.chanDepth = 0 ∧
    ((startup "" true).l.processFrame (queuedFrame 12)).l.chanDepth = 11 ∧
    LogLine.backlog 11 ∈ ((startup "" true).l.processFrame (queuedFrame 12)).log ∧
    ((startup "" true).l.processFrame (queuedFrame 11)).l.chanDepth = 10 ∧
    ((startup "" true).l.processFrame (queuedFrame 11)).log.filter (fun x => x.isBacklog)
      = [] :=
  have h12 := (C5_backlog_iff (startup "" true).l (queuedFrame 12)).2.1 (by decide) (by decide)
  have h11 := (C5_backlog_iff (startup "" true).l (queuedFrame 11)).2.1 (by decide) (by decide)
  ⟨by decide, h12.1, h12.2.1.mpr (by decide), h11.1, h11.2.2⟩

/-- C6, as stated, fails: while the wake phrase is spoken, a silent frame on which
`EndUtt` returns an error does issue `EndUtt`, yet the process is not terminated and
the next frame is processed. -/
theorem C6_endUtt_error_not_fatal :
    wakeSpeechState.uttStarted = true ∧ endUttErrFrame.endUttOk = false ∧
    Call.endUtt ∈ (wakeSpeechState.processFrame endUttErrFrame).calls ∧
    (wakeSpeechState.processFrame endUttErrFrame).fatal = false ∧
    (wakeSpeechState.Process [endUttErrFrame, speechFrame 7]).log
      = [LogLine.search "keyword", LogLine.listening] ∧
    (wakeSpeechState.Process [endUttErrFrame, speechFrame 7]).l.uttStarted = true := by
  decide

/-- C6, amended: a failing `StartUtt` is fatal.  In the speech-to-silence branch and
in the timeout branch `StartUtt` is called; on every frame that calls it, if it
returns an error the process terminates on that frame, `StartUtt` being its last
decoder call, and no further frame is processed.  The error result of `EndUtt` is
discarded: it changes nothing in the outcome of the frame. -/
theorem C6_startUtt_error_fatal (l : Listener) (f : Frame) :
    (f.inSpeech = false → l.uttStarted = true → Call.startUtt ∈ (l.processFrame f).calls) ∧
    (f.inSpeech = false → l.uttStarted = false → l.inCommand = true →
      l.commandTimeout < f.now → Call.startUtt ∈ (l.processFrame f).calls) ∧
    (Call.startUtt ∈ (l.processFrame f).calls → f.startUttOk = false →
      (l.processFrame f).fatal = true ∧
      (l.processFrame f).calls.getLast? = some Call.startUtt ∧
      LogLine.fatalStartUtt ∈ (l.processFrame f).log ∧
      ∀ rest, l.Process (f :: rest) = l.processFrame f) ∧
    (∀ b, l.processFrame { f with endUttOk := b } = l.processFrame f) := by
  refine ⟨?_, ?_, ?_, ?_⟩
  · intro hsil hu
    cases hh : f.hyp <;>
      simp [Listener.processFrame, hsil, hu, hh, restartUtt_calls, Listener.report] <;>
      split <;> simp [restartUtt_calls, Listener.report]
  · intro hsil hu hc hlt
    simp [Listener.processFrame, hsil, hu, hc, hlt, restartUtt_calls]
  · intro hmem hfail
    have hfatal : (l.processFrame f).fatal = true ∧
        (l.processFrame f).calls.getLast? = some Call.startUtt ∧
        LogLine.fatalStartUtt ∈ (l.processFrame f).log := by
      unfold Listener.processFrame at hmem ⊢
      simp only [] at hmem ⊢
      split_ifs at hmem ⊢ <;> first
        | (simp at hmem; done)
        | (simp [restartUtt, hfail]; done)
        | (cases hh : f.hyp <;> simp [restartUtt, hfail, Listener.report])
    refine ⟨hfatal.1, hfatal.2.1, hfatal.2.2, ?_⟩
    intro rest
    simp [Listener.Process, hfatal.1]
  · intro b
    rfl

/-- C6 amended, at a silent frame on which `StartUtt` fails while the wake phrase
is spoken. -/
theorem C6_startUtt_error_fatal_witness :
    startUttErrFrame.inSpeech = false ∧ wakeSpeechState.uttStarted = true ∧
    startUttErrFrame.startUttOk = false ∧
    Call.startUtt ∈ (wakeSpeechState.processFrame startUttErrFrame).calls ∧
    (wakeSpeechState.processFrame startUttErrFrame).fatal = true ∧
    wakeSpeechState.Process [startUttErrFrame, speechFrame 7]
      = wakeSpeechState.processFrame startUttErrFrame :=
  have h := C6_startUtt_error_fatal wakeSpeechState startUttErrFrame
  ⟨by decide, by decide, by decide, h.1 (by decide) (by decide),
    (h.2.2.1 (h.1 (by decide) (by decide)) (by decide)).1,
    (h.2.2.1 (h.1 (by decide) (by decide)) (by decide)).2.2.2 [speechFrame 7]⟩

/-- C7, as stated, fails: while the wake phrase is spoken (`uttStarted` true,
`inCommand` false, active search "keyword"), a silent frame on which `GetHyp`
returns the empty string without an error opens the command window. -/
theorem C7_empty_hypothesis_matches :
    wakeSpeechState.uttStarted = true ∧ wakeSpeechState.inCommand = false ∧
    wakeSpeechState.dec.GetSearch = "keyword" ∧
    (silenceFrame (some "") 6).inSpeech = false ∧ (silenceFrame (some "") 6).hyp = some "" ∧
    (wakeSpeechState.processFrame (silenceFrame (some "") 6)).l.dec.GetSearch = "grammar" ∧
    (wakeSpeechState.processFrame (silenceFrame (some "") 6)).l.inCommand = true ∧
    (wakeSpeechState.processFrame (silenceFrame (some "") 6)).l.commandTimeout
      ≠ wakeSpeechState.commandTimeout := by
  decide

/-- C7, amended: from a state with `uttStarted` true, `inCommand` false and active
search "keyword", a silent frame on which `GetHyp` returns an error leaves the
active search "keyword", `inCommand` false and `commandTimeout` unchanged, logs no
hypothesis, and calls `StartUtt` to reopen an utterance; the frame ends the process
only when that `StartUtt` fails.  A hypothesis returned without an error opens the
command window whatever its text, the empty string included. -/
theorem C7_no_keyword (l : Listener) (f : Frame)
    (hu : l.uttStarted = true) (hc : l.inCommand = false) (hs : l.dec.GetSearch = "keyword")
    (hsil : f.inSpeech = false) :
    (f.hyp = none →
      (l.processFrame f).l.dec.GetSearch = "keyword" ∧
      (l.processFrame f).l.inCommand = false ∧
      (l.processFrame f).l.commandTimeout = l.commandTimeout ∧
      (l.processFrame f).l.uttStarted = false ∧
      (l.processFrame f).calls =
        [Call.processRaw f.samples true false, Call.isInSpeech, Call.endUtt, Call.getSearch,
          Call.getSearch, Call.getHyp, Call.startUtt] ∧
      (l.processFrame f).fatal = !f.startUttOk) ∧
    (∀ h, f.hyp = some h →
      (l.processFrame f).l.dec.GetSearch = "grammar" ∧
      (l.processFrame f).l.inCommand = true ∧
      (l.processFrame f).l.commandTimeout = f.now + 5 * second) := by
  simp only [Decoder.GetSearch] at hs
  constructor
  · intro hh
    simp [Listener.processFrame, hu, hc, hs, hsil, hh, restartUtt_l, restartUtt_calls,
      restartUtt_fatal, Decoder.GetSearch]
  · intro h hh
    simp [Listener.processFrame, hu, hs, hsil, hh, restartUtt_l, Decoder.GetSearch,
      Decoder.SetSearch]

/-- C7 amended, at the silent frame with a failed `GetHyp` after the wake phrase
scenario's speech. -/
theorem C7_no_keyword_witness :
    wakeSpeechState.uttStarted = true ∧ wakeSpeechState.inCommand = false ∧
    wakeSpeechState.dec.GetSearch = "keyword" ∧ (silenceFrame none 6).inSpeech = false ∧
    (silenceFrame none 6).hyp = none ∧
    (wakeSpeechState.processFrame (silenceFrame none 6)).l.dec.GetSearch = "keyword" ∧
    (wakeSpeechState.processFrame (silenceFrame none 6)).l.inCommand = false ∧
    (wakeSpeechState.processFrame (silenceFrame none 6)).l.commandTimeout
      = wakeSpeechState.commandTimeout ∧
    (wakeSpeechState.processFrame (silenceFrame none 6)).fatal = false :=
  have h := (C7_no_keyword wakeSpeechState (silenceFrame none 6)
    (by decide) (by decide) (by decide) (by decide)).1 (by decide)
  ⟨by decide, by decide, by decide, by decide, by decide, h.1, h.2.1, h.2.2.1, h.2.2.2.2.2⟩

/-- C8: whenever a run of `Process`, from any Listener state and in particular
from startup, ends in the fatal `StartUtt` error, `uttStarted` is false at that
point and the failed `StartUtt` is the last decoder call. -/
theorem C8_fatal_uttStarted_false (l : Listener) (grammar : String) (startUttOk : Bool)
    (frames : List Frame) :
    ((l.Process frames).fatal = true →
      (l.Process frames).l.uttStarted = false ∧
      (l.Process frames).calls.getLast? = some Call.startUtt) ∧
    ((main grammar startUttOk frames).fatal = true →
      (main grammar startUttOk frames).l.uttStarted = false ∧
      (main grammar startUttOk frames).calls.getLast? = some Call.startUtt) := by
  refine ⟨Process_fatal_uttStarted frames l, ?_⟩
  intro h
  cases startUttOk
  · simp [main, startup]
  · simp only [main, startup] at h ⊢
    simp only [if_true, Bool.false_eq_true, if_false] at h ⊢
    obtain ⟨h1, h2⟩ := Process_fatal_uttStarted frames _ h
    refine ⟨h1, ?_⟩
    rw [List.getLast?_append, h2]
    rfl

/-- C8 at the run in which `StartUtt` fails on the silent frame closing the wake
phrase. -/
theorem C8_fatal_uttStarted_false_witness :
    (main "" true (wakeSpeech ++ [startUttErrFrame, speechFrame 7])).fatal = true ∧
    (main "" true (wakeSpeech ++ [startUttErrFrame, speechFrame 7])).l.uttStarted = false ∧
    (main "" true (wakeSpeech ++ [startUttErrFrame, speechFrame 7])).calls.getLast?
      = some Call.startUtt :=
  ⟨by decide,
    (C8_fatal_uttStarted_false wakeSpeechState "" true
      (wakeSpeech ++ [startUttErrFrame, speechFrame 7])).2 (by decide)⟩

/-- C9, as stated, fails: with fifty unconsumed frames in `audioChannel`, the send
of `paCallback` does not complete; it waits for the consumer to receive. -/
theorem C9_full_channel_blocks :
    fullChannel.length = audioChannelCap ∧
    (startup "" true).l.paCallback fullChannel [] = none := by
  decide

/-- C9, amended: the push of `paCallback` completes without waiting exactly when
`audioChannel` holds fewer than its capacity of fifty unconsumed frames; it then
appends the frame and increments the depth counter, changing nothing else.  With
fifty frames buffered the send waits for the consumer. -/
theorem C9_push_completes_iff (l : Listener) (buf : List (List Int)) (inp : List Int) :
    (buf.length < 50 →
      l.paCallback buf inp
        = some (buf ++ [inp], { l with chanDepth := wrap32 (l.chanDepth + 1) })) ∧
    (50 ≤ buf.length → l.paCallback buf inp = none) ∧
    ((l.paCallback buf inp).isSome = true ↔ buf.length < 50) := by
  refine ⟨?_, ?_, ?_⟩
  · intro h
    simp [Listener.paCallback, chanSend, audioChannelCap, h]
  · intro h
    have h' : ¬ buf.length < 50 := not_lt.mpr h
    simp [Listener.paCallback, chanSend, audioChannelCap, h']
  · by_cases h : buf.length < 50 <;> simp [Listener.paCallback, chanSend, audioChannelCap, h]

/-- C9 amended, at an empty channel and at a full one. -/
theorem C9_push_completes_iff_witness :
    ([] : List (List Int)).length < 50 ∧ 50 ≤ fullChannel.length ∧
    (startup "" true).l.paCallback [] [1, 2]
      = some ([] ++ [[1, 2]],
          { (startup "" true).l with chanDepth := wrap32 ((startup "" true).l.chanDepth + 1) }) ∧
    (startup "" true).l.paCallback fullChannel [1, 2] = none :=
  ⟨by decide, by decide,
    (C9_push_completes_iff (startup "" true).l [] [1, 2]).1 (by decide),
    (C9_push_completes_iff (startup "" true).l fullChannel [1, 2]).2.1 (by decide)⟩

/-- C10, as stated, fails: right after the keyword match (`inCommand` true, deadline
5000000006), a frame at clock time 5000000007 on which the decoder reports voice
activity is no speech-to-silence edge, yet the command is not abandoned: no
`EndUtt`, no `StartUtt`, `inCommand` stays true and the search stays "grammar". -/
theorem C10_speech_frame_no_timeout :
    afterKeywordState.inCommand = true ∧
    afterKeywordState.commandTimeout < (speechFrame 5000000007).now ∧
    (speechFrame 5000000007).inSpeech = true ∧
    (afterKeywordState.processFrame (speechFrame 5000000007)).l.inCommand = true ∧
    (afterKeywordState.processFrame (speechFrame 5000000007)).l.dec.GetSearch = "grammar" ∧
    (afterKeywordState.processFrame (speechFrame 5000000007)).calls
      = [Call.processRaw [] true false, Call.isInSpeech] ∧
    (afterKeywordState.processFrame (speechFrame 5000000007)).log = [LogLine.listening] := by
  decide

/-- C10, amended: the timeout is taken on silent frames only.  From a state with
`inCommand` true and `uttStarted` false, a frame at a clock time after
`commandTimeout` on which the decoder reports no voice activity abandons the
command: `EndUtt` is called, "Timeout.." is logged, `inCommand` becomes false, the
active search becomes "keyword" and `StartUtt` is called.  On a frame on which the
decoder reports voice activity no timeout is taken: `inCommand`, `commandTimeout`
and the active search are unchanged and no lifecycle call is issued. -/
theorem C10_timeout_on_silence (l : Listener) (f : Frame)
    (hc : l.inCommand = true) (hlt : l.commandTimeout < f.now) :
    (f.inSpeech = false → l.uttStarted = false →
      (l.processFrame f).calls =
        [Call.processRaw f.samples true false, Call.isInSpeech, Call.endUtt,
          Call.setSearch "keyword", Call.startUtt] ∧
      LogLine.timeout ∈ (l.processFrame f).log ∧
      (l.processFrame f).l.inCommand = false ∧
      (l.processFrame f).l.dec.GetSearch = "keyword" ∧
      (l.processFrame f).fatal = !f.startUttOk) ∧
    (f.inSpeech = true →
      (l.processFrame f).calls = [Call.processRaw f.samples true false, Call.isInSpeech] ∧
      LogLine.timeout ∉ (l.processFrame f).log ∧
      (l.processFrame f).l.inCommand = true ∧
      (l.processFrame f).l.commandTimeout = l.commandTimeout ∧
      (l.processFrame f).l.dec = l.dec ∧
      (l.processFrame f).fatal = false) := by
  constructor
  · intro hsil hu
    simp [Listener.processFrame, hc, hu, hsil, hlt, restartUtt_calls, restartUtt_l,
      restartUtt_fatal, Decoder.GetSearch, Decoder.SetSearch]
    simp [restartUtt]
    split <;> simp
  · intro hsp
    cases hu : l.uttStarted <;> simp [Listener.processFrame, hc, hu, hsp]

/-- C10 amended, right after the keyword match of the wake phrase scenario: the
silent frame at clock time 5000000007 abandons the command, the speech frame at
that time does not. -/
theorem C10_timeout_on_silence_witness :
    afterKeywordState.inCommand = true ∧
    afterKeywordState.commandTimeout < (5000000007 : Int) ∧
    afterKeywordState.uttStarted = false ∧
    (afterKeywordState.processFrame (silenceFrame none 5000000007)).l.inCommand = false ∧
    (afterKeywordState.processFrame (silenceFrame none 5000000007)).l.dec.GetSearch
      = "keyword" ∧
    (afterKeywordState.processFrame (speechFrame 5000000007)).l.inCommand = true :=
  have h1 := (C10_timeout_on_silence afterKeywordState (silenceFrame none 5000000007)
    (by decide) (by decide)).1 (by decide) (by decide)
  have h2 := (C10_timeout_on_silence afterKeywordState (speechFrame 5000000007)
    (by decide) (by decide)).2 (by decide)
  ⟨by decide, by decide, by decide, h1.2.2.1, h1.2.2.2.1, h2.2.2.1⟩

/-- C11, as stated, fails: in the startup state `main` has started the initial
utterance, which is open, yet `uttStarted` is false; and after the silent frame
that closes the wake phrase a new utterance is open while `uttStarted` is false. -/
theorem C11_startup_uttStarted_false :
    uttOpen (startup "" true).calls = true ∧ (startup "" true).l.uttStarted = false ∧
    uttOpen (main "" true (wakeSpeech ++ [wakeSilence])).calls = true ∧
    (main "" true (wakeSpeech ++ [wakeSilence])).fatal = false ∧
    (main "" true (wakeSpeech ++ [wakeSilence])).l.uttStarted = false := by
  decide

/-- C11, amended: when the initial `StartUtt` of `main` and every lifecycle call of
`Process` succeed, a decoder utterance is open in the startup state and after every
processed frame, while `uttStarted` is false in the startup state and after each
processed frame equals the voice-activity flag the decoder reported on that frame:
it tells that speech has been heard in the open utterance, not that one is open. -/
theorem C11_uttStarted_is_speech_heard (grammar : String) (startUttOk : Bool)
    (frames : List Frame) (h0 : startUttOk = true)
    (hok : ∀ f ∈ frames, f.startUttOk = true ∧ f.endUttOk = true) :
    uttOpen (startup grammar startUttOk).calls = true ∧
    (startup grammar startUttOk).l.uttStarted = false ∧
    ∀ k : Nat,
      (main grammar startUttOk (frames.take k)).fatal = false ∧
      uttOpen (main grammar startUttOk (frames.take k)).calls = true ∧
      ∀ f, (frames.take k).getLast? = some f →
        (main grammar startUttOk (frames.take k)).l.uttStarted = f.inSpeech := by
  subst h0
  refine ⟨by simp [uttOpen, startup, lifecycle], by simp [startup], ?_⟩
  intro k
  have hok' : ∀ f ∈ frames.take k, f.startUttOk = true :=
    fun f hf => (hok f (List.mem_of_mem_take hf)).1
  have h3 := Process_not_fatal (frames.take k) (startup grammar true).l hok'
  have hmain : main grammar true (frames.take k) =
      { l := ((startup grammar true).l.Process (frames.take k)).l,
        fatal := ((startup grammar true).l.Process (frames.take k)).fatal,
        calls := (startup grammar true).calls
          ++ ((startup grammar true).l.Process (frames.take k)).calls,
        log := (startup grammar true).log
          ++ ((startup grammar true).l.Process (frames.take k)).log } := by
    simp [main, startup]
  refine ⟨?_, ?_, ?_⟩
  · rw [hmain]; exact h3
  · rw [hmain]
    have hs : lifecycle (startup grammar true).calls = [Call.startUtt] := by
      simp [startup, lifecycle]
    simp only [uttOpen, lifecycle_append, hs, decide_eq_true_eq]
    rcases Process_lifecycle_last (frames.take k) (startup grammar true).l with h | h
    · rw [h]; rfl
    · rw [List.getLast?_append, h]; rfl
  · intro f hf
    rw [hmain]
    exact Process_uttStarted (frames.take k) (startup grammar true).l h3 f hf

/-- C11 amended, at the wake phrase scenario: after the last speech frame
`uttStarted` is true, after the closing silent frame it is false, and an utterance
is open both times. -/
theorem C11_uttStarted_is_speech_heard_witness :
    (∀ f ∈ wakeSpeech ++ [wakeSilence], f.startUttOk = true ∧ f.endUttOk = true) ∧
    uttOpen (main "" true ((wakeSpeech ++ [wakeSilence]).take 5)).calls = true ∧
    (main "" true ((wakeSpeech ++ [wakeSilence]).take 5)).l.uttStarted
      = (speechFrame 5).inSpeech ∧
    uttOpen (main "" true ((wakeSpeech ++ [wakeSilence]).take 6)).calls = true ∧
    (main "" true ((wakeSpeech ++ [wakeSilence]).take 6)).l.uttStarted
      = wakeSilence.inSpeech :=
  have h := (C11_uttStarted_is_speech_heard "" true (wakeSpeech ++ [wakeSilence]) rfl
    (by decide)).2.2
  ⟨by decide, (h 5).2.1, (h 5).2.2 (speechFrame 5) (by decide), (h 6).2.1,
    (h 6).2.2 wakeSilence (by decide)⟩

/-- C12, as stated, fails: after startup, a speech frame and then a silent frame,
the decoder reported silence on the last processed frame, yet `inSpeech` is true. -/
theorem C12_inSpeech_stays_true :
    (silenceFrame none 2).inSpeech = false ∧
    (main "" true [speechFrame 1, silenceFrame none 2]).fatal = false ∧
    (main "" true [speechFrame 1, silenceFrame none 2]).l.inSpeech = true ∧
    (main "" true [speechFrame 1, silenceFrame none 2]).l.inSpeech
      ≠ (silenceFrame none 2).inSpeech := by
  decide

/-- C12, amended: `inSpeech` latches the flag of the decoder.  After every processed
frame it is true when the decoder reported voice activity on that frame and keeps
its previous value when the decoder reported silence; it is never set back to
false.  From startup, where it is false, in a run whose `StartUtt` calls all succeed
it is true exactly when the decoder reported voice activity on some processed
frame. -/
theorem C12_inSpeech_latches (l : Listener) (f : Frame) (grammar : String)
    (frames : List Frame) (hok : ∀ g ∈ frames, g.startUttOk = true) :
    (f.inSpeech = true → (l.processFrame f).l.inSpeech = true) ∧
    (f.inSpeech = false → (l.processFrame f).l.inSpeech = l.inSpeech) ∧
    (l.inSpeech = true → (l.processFrame f).l.inSpeech = true) ∧
    (startup grammar true).l.inSpeech = false ∧
    ((main grammar true frames).l.inSpeech = true ↔ ∃ g ∈ frames, g.inSpeech = true) := by
  refine ⟨?_, ?_, ?_, by simp [startup], ?_⟩
  · intro h; rw [processFrame_inSpeech, h]; simp
  · intro h; rw [processFrame_inSpeech, h]; simp
  · intro h; rw [processFrame_inSpeech, h]; simp
  · have hrun := Process_inSpeech frames (startup grammar true).l hok
    have hmain : (main grammar true frames).l = ((startup grammar true).l.Process frames).l := by
      simp [main, startup]
    rw [hmain, hrun]
    simp [startup]

/-- C12 amended, at the run of a speech frame followed by a silent frame: the
silent frame keeps `inSpeech` true, and the run has a frame with voice activity. -/
theorem C12_inSpeech_latches_witness :
    (∀ g ∈ [speechFrame 1, silenceFrame none 2], g.startUttOk = true) ∧
    (silenceFrame none 2).inSpeech = false ∧
    (((startup "" true).l.processFrame (speechFrame 1)).l.processFrame
      (silenceFrame none 2)).l.inSpeech
      = ((startup "" true).l.processFrame (speechFrame 1)).l.inSpeech ∧
    ((main "" true [speechFrame 1, silenceFrame none 2]).l.inSpeech = true ↔
      ∃ g ∈ [speechFrame 1, silenceFrame none 2], g.inSpeech = true) :=
  have h := C12_inSpeech_latches ((startup "" true).l.processFrame (speechFrame 1)).l
    (silenceFrame none 2) "" [speechFrame 1, silenceFrame none 2] (by decide)
  ⟨by decide, by decide, h.2.1 (by decide), h.2.2.2.2⟩

/-- C13: a frame on which the decoder reports voice activity makes no decoder call
but feeding the frame and reading the flag (no `StartUtt`, `EndUtt`, `SetSearch`,
`GetHyp`), leaves `inCommand`, `commandTimeout` and the active search unchanged,
leaves `inSpeech` and `uttStarted` true, and logs "Listening.." exactly when
`uttStarted` was false before. -/
theorem C13_speech_frame (l : Listener) (f : Frame) (hsp : f.inSpeech = true) :
    (l.processFrame f).calls = [Call.processRaw f.samples true false, Call.isInSpeech] ∧
    (l.processFrame f).l.inCommand = l.inCommand ∧
    (l.processFrame f).l.commandTimeout = l.commandTimeout ∧
    (l.processFrame f).l.dec.GetSearch = l.dec.GetSearch ∧
    (l.processFrame f).l.inSpeech = true ∧
    (l.processFrame f).l.uttStarted = true ∧
    (LogLine.listening ∈ (l.processFrame f).log ↔ l.uttStarted = false) ∧
    (l.processFrame f).fatal = false := by
  cases hu : l.uttStarted <;> simp [Listener.processFrame, hsp, hu]

/-- C13 at the first speech frame after startup, which logs "Listening..". -/
theorem C13_speech_frame_witness :
    (speechFrame 1).inSpeech = true ∧
    ((startup "" true).l.processFrame (speechFrame 1)).calls
      = [Call.processRaw (speechFrame 1).samples true false, Call.isInSpeech] ∧
    ((startup "" true).l.processFrame (speechFrame 1)).l.uttStarted = true ∧
    LogLine.listening ∈ ((startup "" true).l.processFrame (speechFrame 1)).log :=
  have h := C13_speech_frame (startup "" true).l (speechFrame 1) (by decide)
  ⟨by decide, h.1, h.2.2.2.2.2.1, h.2.2.2.2.2.2.1.mpr (by decide)⟩

/-- C14: with the decoder returning from `GetSearch` the name last given to
`SetSearch`, in the startup state and after every run of `Process` from it (each
prefix of a run is a run), `inCommand` is true exactly when the active search is
"grammar" and false exactly when it is "keyword". -/
theorem C14_mode_flag_coupling (grammar : String) (startUttOk : Bool) (frames : List Frame) :
    ((startup grammar startUttOk).l.inCommand = false ∧
      (startup grammar startUttOk).l.dec.GetSearch = "keyword") ∧
    ((main grammar startUttOk frames).l.inCommand = true ↔
      (main grammar startUttOk frames).l.dec.GetSearch = "grammar") ∧
    ((main grammar startUttOk frames).l.inCommand = false ↔
      (main grammar startUttOk frames).l.dec.GetSearch = "keyword") := by
  have hk : ¬ ("grammar" = "keyword") := by decide
  have hk2 : ¬ ("keyword" = "grammar") := by decide
  have hstart : (startup grammar startUttOk).l.inCommand = false ∧
      (startup grammar startUttOk).l.dec.search = "keyword" := by
    cases startUttOk <;> simp [startup]
  have hinv : ((main grammar startUttOk frames).l.inCommand = true ∧
        (main grammar startUttOk frames).l.dec.search = "grammar") ∨
      ((main grammar startUttOk frames).l.inCommand = false ∧
        (main grammar startUttOk frames).l.dec.search = "keyword") := by
    unfold main
    simp only []
    split_ifs with hf
    · exact Or.inr hstart
    · exact Process_coupled frames _ (Or.inr hstart)
  refine ⟨hstart, ?_, ?_⟩
  · rcases hinv with ⟨h1, h2⟩ | ⟨h1, h2⟩ <;> simp [Decoder.GetSearch, h1, h2, hk, hk2]
  · rcases hinv with ⟨h1, h2⟩ | ⟨h1, h2⟩ <;> simp [Decoder.GetSearch, h1, h2, hk, hk2]

/-- C15: from a state with `uttStarted` false, a silent frame on which the timeout
condition (`inCommand` and `commandTimeout` before now) does not hold changes
nothing of the Listener but the depth counter of the pop, makes no decoder call
but feeding the frame and reading the flag, and logs nothing but the backlog
warning when due. -/
theorem C15_idle_frame (l : Listener) (f : Frame)
    (hu : l.uttStarted = false) (hsil : f.inSpeech = false)
    (hno : ¬ (l.inCommand = true ∧ l.commandTimeout < f.now)) :
    (l.processFrame f).l = { l with chanDepth := l.curdepth f } ∧
    (l.processFrame f).l.inSpeech = l.inSpeech ∧
    (l.processFrame f).l.uttStarted = l.uttStarted ∧
    (l.processFrame f).l.inCommand = l.inCommand ∧
    (l.processFrame f).l.commandTimeout = l.commandTimeout ∧
    (l.processFrame f).calls = [Call.processRaw f.samples true false, Call.isInSpeech] ∧
    (l.processFrame f).log
      = (if l.curdepth f > 10 then [LogLine.backlog (l.curdepth f)] else []) ∧
    (l.processFrame f).fatal = false := by
  have hc : (l.inCommand && decide (l.commandTimeout < f.now)) = false := by
    cases hi : l.inCommand
    · rfl
    · simp only [Bool.true_and, decide_eq_false_iff_not]
      exact fun hlt => hno ⟨hi, hlt⟩
  have hstep : l.processFrame f =
      { l := { l with chanDepth := l.curdepth f }, fatal := false,
        calls := [Call.processRaw f.samples true false, Call.isInSpeech],
        log := if l.curdepth f > 10 then [LogLine.backlog (l.curdepth f)] else [] } := by
    unfold Listener.processFrame
    simp only [hsil, hu, hc, Bool.false_eq_true, if_false]
  rw [hstep]
  simp

/-- C15 at a silent frame right after startup, and at a silent frame inside the
command window opened by the wake phrase. -/
theorem C15_idle_frame_witness :
    (startup "" true).l.uttStarted = false ∧ (silenceFrame none 1).inSpeech = false ∧
    ((startup "" true).l.processFrame (silenceFrame none 1)).l
      = { (startup "" true).l with
          chanDepth := (startup "" true).l.curdepth (silenceFrame none 1) } ∧
    ((startup "" true).l.processFrame (silenceFrame none 1)).calls
      = [Call.processRaw (silenceFrame none 1).samples true false, Call.isInSpeech] ∧
    (afterKeywordState.processFrame (silenceFrame none 7)).l.inCommand
      = afterKeywordState.inCommand :=
  have h := C15_idle_frame (startup "" true).l (silenceFrame none 1) (by decide) (by decide)
    (by decide)
  have h2 := C15_idle_frame afterKeywordState (silenceFrame none 7) (by decide) (by decide)
    (by decide)
  ⟨by decide, by decide, h.1, h.2.2.2.2.2.1, h2.2.2.2.1⟩

/-- C16: from a state with `uttStarted` true, `inCommand` true and active search
"grammar", a silent frame at a clock time after `commandTimeout` takes the
speech-to-silence branch: the hypothesis is fetched with `GetHyp` and reported
(its line, or "ah, nothing" when the fetch fails), "Timeout.." is not logged, and the
lifecycle calls of the frame are exactly one `EndUtt` followed by one `StartUtt`. -/
theorem C16_edge_before_timeout (l : Listener) (f : Frame)
    (hu : l.uttStarted = true) (_hc : l.inCommand = true) (hs : l.dec.GetSearch = "grammar")
    (hsil : f.inSpeech = false) (_hlt : l.commandTimeout < f.now) :
    (l.processFrame f).calls =
      [Call.processRaw f.samples true false, Call.isInSpeech, Call.endUtt, Call.getSearch,
        Call.getSearch, Call.getHyp, Call.setSearch "keyword", Call.startUtt] ∧
    lifecycle (l.processFrame f).calls = [Call.endUtt, Call.startUtt] ∧
    LogLine.timeout ∉ (l.processFrame f).log ∧
    LogLine.search "grammar" ∈ (l.processFrame f).log ∧
    (∀ h, f.hyp = some h → LogLine.hypothesis h ∈ (l.processFrame f).log) ∧
    (f.hyp = none → LogLine.nothing ∈ (l.processFrame f).log) ∧
    (l.processFrame f).l.inCommand = false ∧
    (l.processFrame f).l.dec.GetSearch = "keyword" := by
  simp only [Decoder.GetSearch] at hs
  have hk : ¬ ("grammar" = "keyword") := by decide
  have hcalls : (l.processFrame f).calls =
      [Call.processRaw f.samples true false, Call.isInSpeech, Call.endUtt, Call.getSearch,
        Call.getSearch, Call.getHyp, Call.setSearch "keyword", Call.startUtt] := by
    cases hh : f.hyp <;>
      simp [Listener.processFrame, hu, hs, hsil, hk, hh, Decoder.GetSearch, restartUtt_calls,
        Listener.report]
  refine ⟨hcalls, ?_, ?_, ?_, ?_, ?_, ?_, ?_⟩
  · rw [hcalls]; simp [lifecycle]
  · cases hh : f.hyp <;>
      simp [Listener.processFrame, hu, hs, hsil, hk, hh, Decoder.GetSearch, Listener.report,
        restartUtt] <;> split <;> simp
  · cases hh : f.hyp <;>
      simp [Listener.processFrame, hu, hs, hsil, hk, hh, Decoder.GetSearch, Listener.report,
        restartUtt] <;> split <;> simp
  · intro h hh
    simp [Listener.processFrame, hu, hs, hsil, hk, hh, Decoder.GetSearch, Listener.report,
      restartUtt]
    split <;> simp
  · intro hh
    simp [Listener.processFrame, hu, hs, hsil, hk, hh, Decoder.GetSearch, Listener.report,
      restartUtt]
    split <;> simp
  · simp [Listener.processFrame, hu, hs, hsil, hk, Decoder.GetSearch, restartUtt_l]
  · simp [Listener.processFrame, hu, hs, hsil, hk, Decoder.GetSearch, restartUtt_l,
      Decoder.SetSearch]

/-- C16 while a command is spoken after the wake phrase (deadline 5000000006): the
silent frame at clock time 5000000008 with hypothesis "turn on lights" reports it
and logs no timeout. -/
theorem C16_edge_before_timeout_witness :
    commandSpeechState.uttStarted = true ∧ commandSpeechState.inCommand = true ∧
    commandSpeechState.dec.GetSearch = "grammar" ∧
    commandSpeechState.commandTimeout < (5000000008 : Int) ∧
    lifecycle (commandSpeechState.processFrame
      (silenceFrame (some "turn on lights") 5000000008)).calls
      = [Call.endUtt, Call.startUtt] ∧
    LogLine.timeout ∉ (commandSpeechState.processFrame
      (silenceFrame (some "turn on lights") 5000000008)).log ∧
    LogLine.hypothesis "turn on lights" ∈ (commandSpeechState.processFrame
      (silenceFrame (some "turn on lights") 5000000008)).log :=
  have h := C16_edge_before_timeout commandSpeechState
    (silenceFrame (some "turn on lights") 5000000008)
    (by decide) (by decide) (by decide) (by decide) (by decide)
  ⟨by decide, by decide, by decide, by decide, h.2.1, h.2.2.1,
    h.2.2.2.2.1 "turn on lights" rfl⟩

end Butler
